import Mathlib

/-!
Verification of the Aura renderer core (C++ sources under aura/) against its
natural-language specification.  The C++ data model and the operations the
claims touch are shallowly embedded below: machine floats are modelled as
rationals, `std::vector` is modelled together with its backing allocation
(base address, capacity, contents) so that pointer stability questions are
expressible, mutexes are dropped in favour of the serialized semantics they
enforce, and the concurrent components (thread pool, shared/exclusive scene
lock, render loop) are modelled as explicit transition systems.
-/

namespace Aura

/-- Model of a glm vec3 of floats (floats as rationals). -/
structure Vec3 where
  x : ℚ
  y : ℚ
  z : ℚ
deriving DecidableEq

/-- Model of a glm mat4 (4 by 4 float matrix). -/
def Mat4 : Type := Fin 4 → Fin 4 → ℚ

/-- Identity matrix, the default value of every glm mat4 in structures.hpp. -/
def Mat4.identity : Mat4 := fun i j => if i = j then 1 else 0

/-- Environment/structures.hpp `Vertex`: an aligned position vector. -/
structure Vertex where
  position : Vec3
deriving DecidableEq

instance : Inhabited Vertex := ⟨⟨⟨0, 0, 0⟩⟩⟩

/-- Environment/structures.hpp `Transform`: translation, scaling and rotation
matrices, all defaulted to the identity. -/
structure Transform where
  translation : Mat4
  scaling : Mat4
  rotation : Mat4

instance : Inhabited Transform := ⟨⟨Mat4.identity, Mat4.identity, Mat4.identity⟩⟩

/-- Environment/structures.hpp `Material::Types`. -/
inductive MaterialType where
  | Bounding | Test | Diffuse | Specular
deriving DecidableEq

/-- Environment/structures.hpp `Material`. -/
structure Material where
  albedo : Vec3 × ℚ
  type : MaterialType
  emissive : Nat
  refractive_index : ℚ
  fuzziness : ℚ
deriving DecidableEq

instance : Inhabited Material := ⟨⟨(⟨0, 0, 0⟩, 0), MaterialType.Bounding, 0, 0, 0⟩⟩

/-- Environment/structures.hpp `Primitive::Types`. -/
inductive PrimitiveType where
  | Empty | Sphere | Cuboid | Triangle
deriving DecidableEq

/-- Environment/structures.hpp `Primitive`: a hittable surface carrying the
indices of its transform and material and its composing vertices. -/
structure Primitive where
  type : PrimitiveType
  transform_idx : Nat
  material_idx : Nat
  radius : ℚ
  vertices : Nat × Nat × Nat × Nat
deriving DecidableEq

instance : Inhabited Primitive := ⟨⟨PrimitiveType.Empty, 0, 0, 0, (0, 0, 0, 0)⟩⟩

/-- Environment/structures.hpp `Entity`.  The C++ field
`std::vector<Primitive *> primitives` stores raw pointers into the primitive
collection; in the model a pointer is the address (a natural number) of the
pointee at the time it was taken. -/
structure Entity where
  transform_idx : Nat
  material_idx : Nat
  primitives : List Nat
deriving DecidableEq

instance : Inhabited Entity := ⟨⟨0, 0, []⟩⟩

/-- Environment/structures.hpp `Camera`. -/
structure Camera where
  look_from : Vec3
  look_at : Vec3
  v_up : Vec3
  v_fov : ℚ
  aperture : ℚ
  focus : ℚ
  transform : Transform

/-- Default camera of structures.hpp. -/
def Camera.init : Camera :=
  ⟨⟨0, 0, 0⟩, ⟨0, 0, 1⟩, ⟨0, 1, 0⟩, 45, 0, 1, default⟩

/-- Model of a C++ `std::vector`: the address of its backing allocation, the
allocated capacity and the stored elements.  The address of element `i` is
`base + i`; growing past `cap` reallocates to a fresh address, moving every
element (C++ reference invalidation on growth). -/
structure CVec (α : Type) where
  base : Nat
  cap : Nat
  data : List α
deriving DecidableEq

/-- Empty default-constructed vector (null storage, capacity zero). -/
def CVec.init {α : Type} : CVec α := ⟨0, 0, []⟩

/-- Number of stored elements. -/
def CVec.size {α : Type} (v : CVec α) : Nat := v.data.length

/-- Address of element `i` in the current backing storage. -/
def CVec.addr {α : Type} (v : CVec α) (i : Nat) : Nat := v.base + i

/-- `emplace_back`: appends an element, reallocating (fresh base taken from
the allocator cursor `alloc`, capacity doubling) when full.  Returns the
grown vector and the advanced allocator cursor. -/
def CVec.push {α : Type} (v : CVec α) (x : α) (alloc : Nat) : CVec α × Nat :=
  if v.data.length < v.cap then
    ({ v with data := v.data ++ [x] }, alloc)
  else
    let newcap := max 1 (2 * v.cap)
    ({ base := alloc, cap := newcap, data := v.data ++ [x] }, alloc + newcap)

/-- Write through a raw pointer: if the address lies inside the live
allocation of `v` the pointee is updated, otherwise the write lands in freed
memory and the live contents of `v` are unaffected (dangling pointer). -/
def CVec.writeAt {α : Type} [Inhabited α] (v : CVec α) (addr : Nat) (f : α → α) : CVec α :=
  if v.base ≤ addr ∧ addr - v.base < v.data.length then
    { v with data := v.data.set (addr - v.base) (f (v.data.getD (addr - v.base) default)) }
  else v

/-- Resolve a raw pointer against the current backing storage of `v`: the
index it denotes, if the address lies inside the live allocation. -/
def CVec.resolve {α : Type} (v : CVec α) (addr : Nat) : Option Nat :=
  if v.base ≤ addr ∧ addr - v.base < v.data.length then some (addr - v.base) else none

/-- Environment/structures.hpp `UpdateGuard`: mutex (elided: all accesses in
the embedding are already serialized), update flag and payload.  The update
flag is default-initialized to `true`. -/
structure UpdateGuard (α : Type) where
  updated : Bool
  data : α
deriving DecidableEq

/-- Default-constructed guard: flag `true`, default payload. -/
def UpdateGuard.init {α : Type} (a : α) : UpdateGuard α := ⟨true, a⟩

-- settings.hpp `EnvLimits`.
namespace EnvLimits

def limit_cameras : Nat := 10
def limit_entities : Nat := 10
def limit_primitives : Nat := 2000
def limit_materials : Nat := 10
def limit_vertices : Nat := 4000

end EnvLimits

/-- Environment/structures.hpp `Scene`, plus the allocator cursor `alloc`
that hands out fresh backing-store addresses (the heap model). -/
structure Scene where
  camera : UpdateGuard Camera
  vertices : UpdateGuard (CVec Vertex)
  transforms : UpdateGuard (CVec Transform)
  materials : UpdateGuard (CVec Material)
  primitives : UpdateGuard (CVec Primitive)
  entities : UpdateGuard (CVec Entity)
  alloc : Nat

/-- Freshly constructed empty scene (`new Scene()` in the Environment
constructor): every guard carries flag `true` and an empty collection. -/
def Scene.init : Scene :=
  { camera := UpdateGuard.init Camera.init
    vertices := UpdateGuard.init CVec.init
    transforms := UpdateGuard.init CVec.init
    materials := UpdateGuard.init CVec.init
    primitives := UpdateGuard.init CVec.init
    entities := UpdateGuard.init CVec.init
    alloc := 1 }

namespace Env

/-- environment.cpp `Environment::addVertex`: fails without mutation at the
vertex capacity, otherwise appends, marks the collection updated and yields
the new index (previous size) and the address of the stored element. -/
def addVertex (s : Scene) (v : Vertex) : Scene × Option (Nat × Nat) :=
  let n := s.vertices.data.size
  if n = EnvLimits.limit_vertices then (s, none)
  else
    let r := s.vertices.data.push v s.alloc
    ({ s with vertices := ⟨true, r.1⟩, alloc := r.2 }, some (n, r.1.addr n))

/-- environment.cpp `Environment::addTransform`: capacity checked against
`limit_entities` (as in the source). -/
def addTransform (s : Scene) (t : Transform) : Scene × Option (Nat × Nat) :=
  let n := s.transforms.data.size
  if n = EnvLimits.limit_entities then (s, none)
  else
    let r := s.transforms.data.push t s.alloc
    ({ s with transforms := ⟨true, r.1⟩, alloc := r.2 }, some (n, r.1.addr n))

/-- environment.cpp `Environment::addPrimitive`. -/
def addPrimitive (s : Scene) (p : Primitive) : Scene × Option (Nat × Nat) :=
  let n := s.primitives.data.size
  if n = EnvLimits.limit_primitives then (s, none)
  else
    let r := s.primitives.data.push p s.alloc
    ({ s with primitives := ⟨true, r.1⟩, alloc := r.2 }, some (n, r.1.addr n))

/-- environment.cpp `Environment::addMaterial`. -/
def addMaterial (s : Scene) (m : Material) : Scene × Option (Nat × Nat) :=
  let n := s.materials.data.size
  if n = EnvLimits.limit_materials then (s, none)
  else
    let r := s.materials.data.push m s.alloc
    ({ s with materials := ⟨true, r.1⟩, alloc := r.2 }, some (n, r.1.addr n))

/-- environment.cpp `Environment::addEntity`. -/
def addEntity (s : Scene) (e : Entity) : Scene × Option (Nat × Nat) :=
  let n := s.entities.data.size
  if n = EnvLimits.limit_entities then (s, none)
  else
    let r := s.entities.data.push e s.alloc
    ({ s with entities := ⟨true, r.1⟩, alloc := r.2 }, some (n, r.1.addr n))

/-- environment.cpp `Environment::newEntity`: first appends a default
transform, then an entity referencing it by index; a failed entity append
leaves the already-appended transform in place. -/
def newEntity (s : Scene) (material_idx : Nat) : Scene × Option Nat :=
  match addTransform s default with
  | (s0, none) => (s0, none)
  | (s1, some (t_idx, _)) =>
    match addEntity s1 ⟨t_idx, material_idx, []⟩ with
    | (s2, none) => (s2, none)
    | (s2, some (e_idx, _)) => (s2, some e_idx)

/-- environment.cpp `Environment::entityAddPrimitive`: copies the owning
entity material and transform indices into the primitive, inserts it into the
primitive collection, and records the raw pointer returned by the insertion
on the entity.  The entities update flag is not touched (as in the source). -/
def entityAddPrimitive (s : Scene) (entity_idx : Nat) (p : Primitive) : Scene × Bool :=
  let ent := s.entities.data.data.getD entity_idx default
  let p1 := { p with material_idx := ent.material_idx, transform_idx := ent.transform_idx }
  match addPrimitive s p1 with
  | (s1, none) => (s1, false)
  | (s1, some (_, address)) =>
    let ent1 := s1.entities.data.data.getD entity_idx default
    let ent2 := { ent1 with primitives := ent1.primitives ++ [address] }
    ({ s1 with entities :=
        { s1.entities with data :=
          { s1.entities.data with data := s1.entities.data.data.set entity_idx ent2 } } },
     true)

/-- environment.cpp `Environment::entityMaterial`: stores the new material
index on the entity, then writes it through every raw pointer the entity
holds into the primitive collection. -/
def entityMaterial (s : Scene) (entity_idx material_idx : Nat) : Scene :=
  let ent := s.entities.data.data.getD entity_idx default
  let ent1 := { ent with material_idx := material_idx }
  let s1 := { s with entities :=
      { s.entities with data :=
        { s.entities.data with data := s.entities.data.data.set entity_idx ent1 } } }
  let pdata := ent.primitives.foldl (fun pv address => pv.writeAt address (fun q => { q with material_idx := material_idx })) s1.primitives.data
  { s1 with primitives := { s1.primitives with data := pdata } }

end Env

/-- Iterated vertex insertion starting from the fresh scene (k default
vertices added through `Environment::addVertex`). -/
def addVertexN : Nat → Scene
  | 0 => Scene.init
  | k + 1 => (Env.addVertex (addVertexN k) default).1

/-- Iterated entity insertion starting from the fresh scene (k default
entities added through `Environment::addEntity`). -/
def addEntityN : Nat → Scene
  | 0 => Scene.init
  | k + 1 => (Env.addEntity (addEntityN k) default).1

theorem CVec.push_data {α : Type} (v : CVec α) (x : α) (alloc : Nat) :
    (v.push x alloc).1.data = v.data ++ [x] := by
  unfold CVec.push
  split <;> simp

theorem CVec.push_size {α : Type} (v : CVec α) (x : α) (alloc : Nat) :
    (v.push x alloc).1.size = v.size + 1 := by
  simp [CVec.size, CVec.push_data]

theorem Env.addVertex_at_limit (s : Scene) (v : Vertex)
    (h : s.vertices.data.size = EnvLimits.limit_vertices) :
    Env.addVertex s v = (s, none) := by
  simp [Env.addVertex, h]

theorem Env.addVertex_below_limit (s : Scene) (v : Vertex)
    (h : s.vertices.data.size ≠ EnvLimits.limit_vertices) :
    (Env.addVertex s v).1.vertices.updated = true ∧
    (Env.addVertex s v).1.vertices.data.size = s.vertices.data.size + 1 ∧
    (Env.addVertex s v).1.vertices.data.data = s.vertices.data.data ++ [v] ∧
    ∃ a, (Env.addVertex s v).2 = some (s.vertices.data.size, a) := by
  simp [Env.addVertex, h, CVec.push_size, CVec.push_data]

theorem Env.addTransform_at_limit (s : Scene) (t : Transform)
    (h : s.transforms.data.size = EnvLimits.limit_entities) :
    Env.addTransform s t = (s, none) := by
  simp [Env.addTransform, h]

theorem Env.addTransform_below_limit (s : Scene) (t : Transform)
    (h : s.transforms.data.size ≠ EnvLimits.limit_entities) :
    (Env.addTransform s t).1.transforms.updated = true ∧
    (Env.addTransform s t).1.transforms.data.size = s.transforms.data.size + 1 ∧
    (Env.addTransform s t).1.entities = s.entities ∧
    ∃ a, (Env.addTransform s t).2 = some (s.transforms.data.size, a) := by
  simp [Env.addTransform, h, CVec.push_size]

theorem Env.addMaterial_at_limit (s : Scene) (m : Material)
    (h : s.materials.data.size = EnvLimits.limit_materials) :
    Env.addMaterial s m = (s, none) := by
  simp [Env.addMaterial, h]

theorem Env.addMaterial_below_limit (s : Scene) (m : Material)
    (h : s.materials.data.size ≠ EnvLimits.limit_materials) :
    (Env.addMaterial s m).1.materials.updated = true ∧
    (Env.addMaterial s m).1.materials.data.size = s.materials.data.size + 1 ∧
    ∃ a, (Env.addMaterial s m).2 = some (s.materials.data.size, a) := by
  simp [Env.addMaterial, h, CVec.push_size]

theorem Env.addPrimitive_at_limit (s : Scene) (p : Primitive)
    (h : s.primitives.data.size = EnvLimits.limit_primitives) :
    Env.addPrimitive s p = (s, none) := by
  simp [Env.addPrimitive, h]

theorem Env.addPrimitive_below_limit (s : Scene) (p : Primitive)
    (h : s.primitives.data.size ≠ EnvLimits.limit_primitives) :
    (Env.addPrimitive s p).1.primitives.updated = true ∧
    (Env.addPrimitive s p).1.primitives.data.size = s.primitives.data.size + 1 ∧
    (Env.addPrimitive s p).1.primitives.data.data = s.primitives.data.data ++ [p] ∧
    ∃ a, (Env.addPrimitive s p).2 = some (s.primitives.data.size, a) := by
  simp [Env.addPrimitive, h, CVec.push_size, CVec.push_data]

theorem Env.addEntity_at_limit (s : Scene) (e : Entity)
    (h : s.entities.data.size = EnvLimits.limit_entities) :
    Env.addEntity s e = (s, none) := by
  simp [Env.addEntity, h]

theorem Env.addEntity_below_limit (s : Scene) (e : Entity)
    (h : s.entities.data.size ≠ EnvLimits.limit_entities) :
    (Env.addEntity s e).1.entities.updated = true ∧
    (Env.addEntity s e).1.entities.data.size = s.entities.data.size + 1 ∧
    ∃ a, (Env.addEntity s e).2 = some (s.entities.data.size, a) := by
  simp [Env.addEntity, h, CVec.push_size]

theorem addVertexN_size (k : Nat) (h : k ≤ 4000) :
    (addVertexN k).vertices.data.size = k := by
  induction k with
  | zero => rfl
  | succ n ih =>
    have hn : (addVertexN n).vertices.data.size = n := ih (Nat.le_of_succ_le h)
    have hne : (addVertexN n).vertices.data.size ≠ EnvLimits.limit_vertices := by
      rw [hn]
      intro hc
      simp [EnvLimits.limit_vertices] at hc
      omega
    have hs := (Env.addVertex_below_limit (addVertexN n) default hne).2.1
    show (Env.addVertex (addVertexN n) default).1.vertices.data.size = n + 1
    rw [hs, hn]

theorem addEntityN_size (k : Nat) (h : k ≤ 10) :
    (addEntityN k).entities.data.size = k := by
  induction k with
  | zero => rfl
  | succ n ih =>
    have hn : (addEntityN n).entities.data.size = n := ih (Nat.le_of_succ_le h)
    have hne : (addEntityN n).entities.data.size ≠ EnvLimits.limit_entities := by
      rw [hn]
      intro hc
      simp [EnvLimits.limit_entities] at hc
      omega
    have hs := (Env.addEntity_below_limit (addEntityN n) default hne).2.1
    show (Env.addEntity (addEntityN n) default).1.entities.data.size = n + 1
    rw [hs, hn]

theorem getD_set_self {α : Type} (l : List α) (i : Nat) (x d : α) (h : i < l.length) :
    (l.set i x).getD i d = x := by
  rw [List.getD_eq_getElem _ _ (by simpa using h)]
  exact List.getElem_set_self (by simpa using h)

theorem getD_set_ne {α : Type} (l : List α) (i j : Nat) (x d : α) (h : i ≠ j) :
    (l.set i x).getD j d = l.getD j d := by
  by_cases hj : j < l.length
  · rw [List.getD_eq_getElem _ _ (by simpa using hj), List.getD_eq_getElem _ _ hj]
    exact List.getElem_set_ne h _
  · rw [List.getD_eq_default _ _ (by simpa using Nat.le_of_not_lt hj),
      List.getD_eq_default _ _ (Nat.le_of_not_lt hj)]

theorem CVec.writeAt_base {α : Type} [Inhabited α] (v : CVec α) (a : Nat) (f : α → α) :
    (v.writeAt a f).base = v.base := by
  unfold CVec.writeAt
  split <;> rfl

theorem CVec.writeAt_length {α : Type} [Inhabited α] (v : CVec α) (a : Nat) (f : α → α) :
    (v.writeAt a f).data.length = v.data.length := by
  unfold CVec.writeAt
  split <;> simp

theorem CVec.resolve_writeAt {α : Type} [Inhabited α] (v : CVec α) (a b : Nat) (f : α → α) :
    (v.writeAt a f).resolve b = v.resolve b := by
  simp [CVec.resolve, CVec.writeAt_base, CVec.writeAt_length]

theorem CVec.writeAt_getD_of_resolve {α : Type} [Inhabited α] (v : CVec α) (a i : Nat)
    (f : α → α) (h : v.resolve a = some i) :
    (v.writeAt a f).data.getD i default = f (v.data.getD i default) := by
  unfold CVec.resolve at h
  split at h
  case isTrue hc =>
    injection h with h
    subst h
    unfold CVec.writeAt
    rw [if_pos hc]
    exact getD_set_self _ _ _ _ hc.2
  case isFalse hc => exact absurd h (by simp)

theorem CVec.writeAt_getD_of_ne {α : Type} [Inhabited α] (v : CVec α) (a i : Nat)
    (f : α → α) (h : v.resolve a ≠ some i) :
    (v.writeAt a f).data.getD i default = v.data.getD i default := by
  unfold CVec.resolve at h
  unfold CVec.writeAt
  split
  case isTrue hc =>
    rw [if_pos hc] at h
    exact getD_set_ne _ _ _ _ _ (fun he => h (by rw [he]))
  case isFalse hc => rfl

theorem CVec.foldl_writeAt_preserve {α : Type} [Inhabited α] (f : α → α) (P : α → Prop)
    (hf : ∀ x, P (f x)) (l : List Nat) (pv : CVec α) (i : Nat)
    (h : P (pv.data.getD i default)) :
    P ((l.foldl (fun v x => v.writeAt x f) pv).data.getD i default) := by
  induction l generalizing pv with
  | nil => exact h
  | cons b rest ih =>
    apply ih
    by_cases hb : pv.resolve b = some i
    · rw [CVec.writeAt_getD_of_resolve pv b i f hb]
      exact hf _
    · rw [CVec.writeAt_getD_of_ne pv b i f hb]
      exact h

theorem CVec.foldl_writeAt_mem {α : Type} [Inhabited α] (f : α → α) (P : α → Prop)
    (hf : ∀ x, P (f x)) (l : List Nat) (pv : CVec α) (a i : Nat)
    (ha : a ∈ l) (h : pv.resolve a = some i) :
    P ((l.foldl (fun v x => v.writeAt x f) pv).data.getD i default) := by
  induction l generalizing pv with
  | nil => cases ha
  | cons b rest ih =>
    rcases List.mem_cons.mp ha with rfl | hmem
    · apply CVec.foldl_writeAt_preserve f P hf rest
      rw [CVec.writeAt_getD_of_resolve pv a i f h]
      exact hf _
    · exact ih (pv.writeAt b f) hmem (by rw [CVec.resolve_writeAt]; exact h)

theorem CVec.push_no_realloc {α : Type} (v : CVec α) (x : α) (alloc : Nat)
    (h : v.data.length < v.cap) :
    (v.push x alloc).1 = { v with data := v.data ++ [x] } := by
  unfold CVec.push
  rw [if_pos h]

theorem CVec.push_realloc_base {α : Type} (v : CVec α) (x : α) (alloc : Nat)
    (h : ¬ v.data.length < v.cap) :
    (v.push x alloc).1.base = alloc := by
  unfold CVec.push
  rw [if_neg h]

/-- The success case of `Environment::addPrimitive`, with the resulting state
and the returned index and element address spelled out. -/
theorem Env.addPrimitive_success (s : Scene) (p : Primitive)
    (h : s.primitives.data.size ≠ EnvLimits.limit_primitives) :
    Env.addPrimitive s p =
      ({ s with primitives := ⟨true, (s.primitives.data.push p s.alloc).1⟩,
                alloc := (s.primitives.data.push p s.alloc).2 },
       some (s.primitives.data.size,
             (s.primitives.data.push p s.alloc).1.addr s.primitives.data.size)) := by
  simp [Env.addPrimitive, h]

/-- Detailed behaviour of a successful `Environment::entityAddPrimitive` call:
the primitive is appended carrying the owning entity material and transform
indices, and the raw address of the stored element (new base plus previous
size) is recorded on the entity; the address resolves against the current
backing storage right after the call. -/
theorem Env.entityAddPrimitive_spec (s : Scene) (e_idx : Nat) (p : Primitive)
    (hlim : s.primitives.data.size ≠ EnvLimits.limit_primitives)
    (hidx : e_idx < s.entities.data.size) :
    (Env.entityAddPrimitive s e_idx p).2 = true ∧
    (Env.entityAddPrimitive s e_idx p).1.primitives.data.data =
      s.primitives.data.data ++
        [{ p with material_idx := (s.entities.data.data.getD e_idx default).material_idx,
                  transform_idx := (s.entities.data.data.getD e_idx default).transform_idx }] ∧
    ((Env.entityAddPrimitive s e_idx p).1.entities.data.data.getD e_idx default).primitives =
      (s.entities.data.data.getD e_idx default).primitives ++
        [(Env.entityAddPrimitive s e_idx p).1.primitives.data.base + s.primitives.data.size] ∧
    ((Env.entityAddPrimitive s e_idx p).1.entities.data.data.getD e_idx default).material_idx =
      (s.entities.data.data.getD e_idx default).material_idx ∧
    (Env.entityAddPrimitive s e_idx p).1.primitives.data.resolve
      ((Env.entityAddPrimitive s e_idx p).1.primitives.data.base + s.primitives.data.size) =
      some s.primitives.data.size ∧
    (Env.entityAddPrimitive s e_idx p).1.entities.data.size = s.entities.data.size := by
  have hA := Env.addPrimitive_success s
    { p with material_idx := (s.entities.data.data.getD e_idx default).material_idx,
             transform_idx := (s.entities.data.data.getD e_idx default).transform_idx } hlim
  refine ⟨?_, ?_, ?_, ?_, ?_, ?_⟩
  · simp only [Env.entityAddPrimitive, hA]
  · simp only [Env.entityAddPrimitive, hA]
    exact CVec.push_data _ _ _
  · simp only [Env.entityAddPrimitive, hA, CVec.addr]
    rw [getD_set_self _ _ _ _ (by simpa [CVec.size] using hidx)]
  · simp only [Env.entityAddPrimitive, hA]
    rw [getD_set_self _ _ _ _ (by simpa [CVec.size] using hidx)]
  · simp only [Env.entityAddPrimitive, hA, CVec.addr, CVec.resolve]
    rw [if_pos ?_]
    · simp [CVec.size]
    · refine ⟨Nat.le_add_right _ _, ?_⟩
      rw [CVec.push_data]
      simp [CVec.size]
  · simp only [Env.entityAddPrimitive, hA, CVec.size]
    simp

/-- Scene holding one entity created with material index 7 (nothing else). -/
def pairScene0 : Scene := (Env.newEntity Scene.init 7).1

/-- One default primitive added to the entity of `pairScene0`. -/
def pairScene1 : Scene := (Env.entityAddPrimitive pairScene0 0 default).1

/-- A second primitive added: this insertion grows the primitive collection
past its capacity of one and reallocates its backing storage. -/
def pairScene2 : Scene := (Env.entityAddPrimitive pairScene1 0 default).1

/-- Material of the entity of `pairScene2` reassigned to 9. -/
def pairScene3 : Scene := Env.entityMaterial pairScene2 0 9

/-- Counterexample to claim C2: right after the first insertion the reference
the entity stores resolves to primitive 0, but the very next insertion into
the primitive collection reallocates the backing storage and the stored
reference no longer resolves at all - it is a raw address, not a
capacity-stable index. -/
theorem claim_C2_counterexample :
    pairScene1.primitives.data.resolve
      ((pairScene1.entities.data.data.getD 0 default).primitives.getD 0 0) = some 0 ∧
    pairScene2.primitives.data.resolve
      ((pairScene2.entities.data.data.getD 0 default).primitives.getD 0 0) = none := by
  decide

/-- Claim C2 (amended): the references an entity stores to its primitives are
raw addresses into the primitive collection backing storage.  The address
recorded by a successful entityAddPrimitive call resolves to the inserted
primitive immediately after the call; an insertion that does not grow the
collection past its capacity preserves resolution of previously stored
references; an insertion that triggers a reallocation invalidates every
previously handed-out address. -/
theorem claim_C2_refs_raw_addresses (s : Scene) (p q : Primitive) (e_idx : Nat)
    (hlim : s.primitives.data.size ≠ EnvLimits.limit_primitives)
    (hidx : e_idx < s.entities.data.size) :
    ((Env.entityAddPrimitive s e_idx p).1.entities.data.data.getD e_idx default).primitives.getLast?
      = some ((Env.entityAddPrimitive s e_idx p).1.primitives.data.base + s.primitives.data.size) ∧
    (Env.entityAddPrimitive s e_idx p).1.primitives.data.resolve
      ((Env.entityAddPrimitive s e_idx p).1.primitives.data.base + s.primitives.data.size)
      = some s.primitives.data.size ∧
    (∀ a i, s.primitives.data.size < s.primitives.data.cap →
      s.primitives.data.resolve a = some i →
      (Env.addPrimitive s q).1.primitives.data.resolve a = some i) ∧
    (∀ a, s.primitives.data.size = s.primitives.data.cap → a < s.alloc →
      (Env.addPrimitive s q).1.primitives.data.resolve a = none) := by
  obtain ⟨-, -, hlist, -, hres, -⟩ := Env.entityAddPrimitive_spec s e_idx p hlim hidx
  refine ⟨?_, hres, ?_, ?_⟩
  · rw [hlist, List.getLast?_concat]
  · intro a i hcap hres0
    rw [Env.addPrimitive_success s q hlim]
    simp only [CVec.resolve] at hres0 ⊢
    rw [CVec.push_no_realloc _ _ _ (by simpa [CVec.size] using hcap)]
    split at hres0
    case isTrue hc =>
      rw [if_pos ⟨hc.1, by simp only [List.length_append, List.length_cons, List.length_nil]; omega⟩]
      exact hres0
    case isFalse hc => exact absurd hres0 (by simp)
  · intro a hcap ha
    rw [Env.addPrimitive_success s q hlim]
    simp only [CVec.resolve]
    rw [CVec.push_realloc_base _ _ _ (by simp [CVec.size] at hcap; omega)]
    rw [if_neg]
    intro hcon
    exact absurd hcon.1 (Nat.not_le_of_lt ha)

/-- Witness for the amended claim C2: the reference stored for the first
primitive of the single-entity scene resolves to that primitive right after
the call. -/
theorem claim_C2_witness :
    (Env.entityAddPrimitive pairScene0 0 default).1.primitives.data.resolve
      ((Env.entityAddPrimitive pairScene0 0 default).1.primitives.data.base +
        pairScene0.primitives.data.size) = some pairScene0.primitives.data.size :=
  (claim_C2_refs_raw_addresses pairScene0 default default 0 (by decide) (by decide)).2.1

/-- Counterexample to claim C4: both primitives of the entity were stored with
the entity material 7, but after entityMaterial reassigns material 9 the
first primitive still reports 7 - the write went through a pointer dangling
since the reallocation caused by the second insertion - while the second
primitive and the entity itself report 9. -/
theorem claim_C4_counterexample :
    (pairScene2.primitives.data.data.getD 0 default).material_idx = 7 ∧
    (pairScene2.primitives.data.data.getD 1 default).material_idx = 7 ∧
    (pairScene3.entities.data.data.getD 0 default).material_idx = 9 ∧
    (pairScene3.primitives.data.data.getD 0 default).material_idx = 7 ∧
    (pairScene3.primitives.data.data.getD 1 default).material_idx = 9 := by
  decide

/-- Claim C4 (amended): a primitive added through entityAddPrimitive is stored
with the owning entity material index, and entityMaterial(e, M2) records M2 on
the entity and propagates it to exactly those owned primitives whose stored
addresses still resolve against the current backing storage of the primitive
collection (all of them when no reallocation happened since the reference was
recorded, as in the single-primitive scenario of the specification). -/
theorem claim_C4_material_propagation (s : Scene) (p : Primitive) (e_idx m2 : Nat)
    (hlim : s.primitives.data.size ≠ EnvLimits.limit_primitives)
    (hidx : e_idx < s.entities.data.size) :
    ((Env.entityAddPrimitive s e_idx p).1.primitives.data.data.getD
        s.primitives.data.size default).material_idx
      = (s.entities.data.data.getD e_idx default).material_idx ∧
    ((Env.entityMaterial s e_idx m2).entities.data.data.getD e_idx default).material_idx = m2 ∧
    (∀ a i, a ∈ (s.entities.data.data.getD e_idx default).primitives →
      s.primitives.data.resolve a = some i →
      ((Env.entityMaterial s e_idx m2).primitives.data.data.getD i default).material_idx = m2) := by
  obtain ⟨-, hdata, -, -, -, -⟩ := Env.entityAddPrimitive_spec s e_idx p hlim hidx
  refine ⟨?_, ?_, ?_⟩
  · simp only [CVec.size] at hdata ⊢
    rw [hdata, List.getD_append_right _ _ _ _ (Nat.le_refl _)]
    simp
  · simp only [Env.entityMaterial]
    rw [getD_set_self _ _ _ _ (by simpa [CVec.size] using hidx)]
  · intro a i ha hres
    simp only [Env.entityMaterial]
    exact CVec.foldl_writeAt_mem (fun q => { q with material_idx := m2 })
      (fun q => q.material_idx = m2) (fun x => rfl) _ _ a i ha hres

/-- Witness for the amended claim C4: on the single-entity scene the inserted
primitive carries the entity material, and a reassignment to 5 lands on the
entity. -/
theorem claim_C4_witness :
    ((Env.entityAddPrimitive pairScene0 0 default).1.primitives.data.data.getD
        pairScene0.primitives.data.size default).material_idx
      = (pairScene0.entities.data.data.getD 0 default).material_idx ∧
    ((Env.entityMaterial pairScene0 0 5).entities.data.data.getD 0 default).material_idx = 5 := by
  have h := claim_C4_material_propagation pairScene0 default 0 5 (by decide) (by decide)
  exact ⟨h.1, h.2.1⟩

/-- Claim C3: every collection append (vertex, transform, material, primitive,
entity) fails with no mutation when the collection sits at its fixed capacity,
and otherwise appends, sets the update flag and returns the previous size as
the new index; in particular, from the fresh scene the first 4000 vertex adds
succeed with indices 0 through 3999 and the 4001st fails with the size still
4000. -/
theorem claim_C3_add_capacity_contract (s : Scene) (v : Vertex) (t : Transform)
    (m : Material) (p : Primitive) (e : Entity) :
    (s.vertices.data.size = EnvLimits.limit_vertices → Env.addVertex s v = (s, none)) ∧
    (s.vertices.data.size ≠ EnvLimits.limit_vertices →
       (Env.addVertex s v).1.vertices.updated = true ∧
       (Env.addVertex s v).1.vertices.data.size = s.vertices.data.size + 1 ∧
       ∃ a, (Env.addVertex s v).2 = some (s.vertices.data.size, a)) ∧
    (s.transforms.data.size = EnvLimits.limit_entities → Env.addTransform s t = (s, none)) ∧
    (s.transforms.data.size ≠ EnvLimits.limit_entities →
       (Env.addTransform s t).1.transforms.updated = true ∧
       (Env.addTransform s t).1.transforms.data.size = s.transforms.data.size + 1 ∧
       ∃ a, (Env.addTransform s t).2 = some (s.transforms.data.size, a)) ∧
    (s.materials.data.size = EnvLimits.limit_materials → Env.addMaterial s m = (s, none)) ∧
    (s.materials.data.size ≠ EnvLimits.limit_materials →
       (Env.addMaterial s m).1.materials.updated = true ∧
       (Env.addMaterial s m).1.materials.data.size = s.materials.data.size + 1 ∧
       ∃ a, (Env.addMaterial s m).2 = some (s.materials.data.size, a)) ∧
    (s.primitives.data.size = EnvLimits.limit_primitives → Env.addPrimitive s p = (s, none)) ∧
    (s.primitives.data.size ≠ EnvLimits.limit_primitives →
       (Env.addPrimitive s p).1.primitives.updated = true ∧
       (Env.addPrimitive s p).1.primitives.data.size = s.primitives.data.size + 1 ∧
       ∃ a, (Env.addPrimitive s p).2 = some (s.primitives.data.size, a)) ∧
    (s.entities.data.size = EnvLimits.limit_entities → Env.addEntity s e = (s, none)) ∧
    (s.entities.data.size ≠ EnvLimits.limit_entities →
       (Env.addEntity s e).1.entities.updated = true ∧
       (Env.addEntity s e).1.entities.data.size = s.entities.data.size + 1 ∧
       ∃ a, (Env.addEntity s e).2 = some (s.entities.data.size, a)) ∧
    (∀ j, j < 4000 → ∃ a, (Env.addVertex (addVertexN j) default).2 = some (j, a)) ∧
    Env.addVertex (addVertexN 4000) default = (addVertexN 4000, none) ∧
    (addVertexN 4000).vertices.data.size = 4000 := by
  refine ⟨Env.addVertex_at_limit s v,
    fun h => ⟨(Env.addVertex_below_limit s v h).1, (Env.addVertex_below_limit s v h).2.1,
      (Env.addVertex_below_limit s v h).2.2.2⟩,
    Env.addTransform_at_limit s t,
    fun h => ⟨(Env.addTransform_below_limit s t h).1, (Env.addTransform_below_limit s t h).2.1,
      (Env.addTransform_below_limit s t h).2.2.2⟩,
    Env.addMaterial_at_limit s m,
    fun h => Env.addMaterial_below_limit s m h,
    Env.addPrimitive_at_limit s p,
    fun h => ⟨(Env.addPrimitive_below_limit s p h).1, (Env.addPrimitive_below_limit s p h).2.1,
      (Env.addPrimitive_below_limit s p h).2.2.2⟩,
    Env.addEntity_at_limit s e,
    fun h => Env.addEntity_below_limit s e h,
    ?_, ?_, ?_⟩
  · intro j hj
    have hsz : (addVertexN j).vertices.data.size = j := addVertexN_size j (Nat.le_of_lt hj)
    have hne : (addVertexN j).vertices.data.size ≠ EnvLimits.limit_vertices := by
      rw [hsz]
      intro hc
      simp [EnvLimits.limit_vertices] at hc
      omega
    obtain ⟨a, ha⟩ := (Env.addVertex_below_limit (addVertexN j) default hne).2.2.2
    exact ⟨a, by rw [ha, hsz]⟩
  · exact Env.addVertex_at_limit _ _ (addVertexN_size 4000 (Nat.le_refl _))
  · exact addVertexN_size 4000 (Nat.le_refl _)

/-- Witness for claim C3: concrete evaluation of the contract at the fresh
scene (below every limit) and at the vertex-full scene. -/
theorem claim_C3_witness :
    (Env.addVertex Scene.init default).1.vertices.data.size = 1 ∧
    Env.addVertex (addVertexN 4000) default = (addVertexN 4000, none) := by
  have h := claim_C3_add_capacity_contract Scene.init default default default default default
  refine ⟨?_, h.2.2.2.2.2.2.2.2.2.2.2.1⟩
  have h2 := h.2.1 (by decide)
  rw [h2.2.1]
  decide

/-- Render-side copies of the four scene collections that
`RayTracer::updateScene` (ray-tracer.cpp) uploads: the contents of the mapped
device buffers, modelled as payload snapshots. -/
structure GpuScene where
  vertices : List Vertex
  transforms : List Transform
  materials : List Material
  primitives : List Primitive

/-- One guarded-collection block of `RayTracer::updateScene`: under the
collection mutex, if the update flag is set the payload is copied to the
device buffer and the flag is cleared afterwards (memcpy then clear, one
critical section); otherwise nothing happens.  Returns the guard, the device
copy, and whether an upload happened. -/
def syncGuard {α β : Type} (g : UpdateGuard α) (copy : α → β) (gpu : β) :
    UpdateGuard α × β × Bool :=
  if g.updated then (⟨false, g.data⟩, copy g.data, true) else (g, gpu, false)

/-- ray-tracer.cpp `RayTracer::updateScene`: runs the four guarded blocks for
vertices, transforms, materials and primitives (the camera is handled by
updateRayLauncher, the entity list is never uploaded), accumulating whether
any upload happened. -/
def RayTracer.updateScene (s : Scene) (g : GpuScene) : Scene × GpuScene × Bool :=
  let rv := syncGuard s.vertices (fun v => v.data) g.vertices
  let rt := syncGuard s.transforms (fun v => v.data) g.transforms
  let rm := syncGuard s.materials (fun v => v.data) g.materials
  let rp := syncGuard s.primitives (fun v => v.data) g.primitives
  ({ s with vertices := rv.1, transforms := rt.1, materials := rm.1, primitives := rp.1 },
   ⟨rv.2.1, rt.2.1, rm.2.1, rp.2.1⟩,
   rv.2.2 || rt.2.2 || rm.2.2 || rp.2.2)

/-- History state of one UpdateGuard-wrapped collection together with its
render-side copy and ghost bookkeeping: how many payload writes of each kind
happened since the last consumer clear, and whether a clear ever happened. -/
structure GuardSync (α : Type) where
  updated : Bool
  data : α
  gpu : α
  appends_since_clear : Nat
  writes_since_clear : Nat
  ever_cleared : Bool
deriving DecidableEq

/-- State of a guard as constructed with the scene: flag `true`, payload at
its default, no write yet, never cleared. -/
def GuardSync.init {α : Type} (d0 g0 : α) : GuardSync α :=
  ⟨true, d0, g0, 0, 0, false⟩

/-- The payload operations the repository performs on a guarded collection:
`append` is one of the Environment addX calls (mutates the payload and sets
the flag), `inplace` is one of the entity operations (entityAddPrimitive
entity update, entityMaterial, entityTranslate/Scale/Rotate), which mutate
the payload without touching any flag, and `sync` is the updateScene consumer
block. -/
inductive GuardOp (α : Type) where
  | append (f : α → α)
  | inplace (f : α → α)
  | sync

/-- Effect of one operation on the guard history state. -/
def GuardSync.step {α : Type} (s : GuardSync α) : GuardOp α → GuardSync α
  | .append f =>
      { s with data := f s.data, updated := true,
               appends_since_clear := s.appends_since_clear + 1,
               writes_since_clear := s.writes_since_clear + 1 }
  | .inplace f =>
      { s with data := f s.data, writes_since_clear := s.writes_since_clear + 1 }
  | .sync =>
      if s.updated then
        { s with gpu := s.data, updated := false,
                 appends_since_clear := 0, writes_since_clear := 0, ever_cleared := true }
      else s

/-- A guard state reached by a sequence of operations. -/
def GuardSync.run {α : Type} (s : GuardSync α) (ops : List (GuardOp α)) : GuardSync α :=
  ops.foldl GuardSync.step s

/-- Counterexample to claim C8, at two reachable states.  First, the freshly
constructed empty scene: every flag is initialized `true` although no payload
was ever written (shown both on the real scene and in the history model).
Second, payload written with the flag clear: after the consumer clears the
primitives flag, entityMaterial rewrites the stored primitive material with
the flag still `false` (shown on the real scene: the entity of `pairScene1`
owns one valid pointer, the sync clears the flag, the reassignment to 9 then
mutates the payload), and likewise in the history model after an inplace
write. -/
theorem claim_C8_counterexample :
    (Scene.init.vertices.updated = true ∧ Scene.init.vertices.data.data = []) ∧
    ((GuardSync.init ([] : List Nat) []).run []).updated = true ∧
    ((GuardSync.init ([] : List Nat) []).run []).writes_since_clear = 0 ∧
    ((RayTracer.updateScene pairScene1 ⟨[], [], [], []⟩).1.primitives.updated = false) ∧
    ((Env.entityMaterial (RayTracer.updateScene pairScene1 ⟨[], [], [], []⟩).1 0 9).primitives.updated = false) ∧
    (((Env.entityMaterial (RayTracer.updateScene pairScene1 ⟨[], [], [], []⟩).1 0 9).primitives.data.data.getD 0 default).material_idx = 9) ∧
    (((RayTracer.updateScene pairScene1 ⟨[], [], [], []⟩).1.primitives.data.data.getD 0 default).material_idx = 7) ∧
    ((GuardSync.init ([] : List Nat) []).run [GuardOp.sync, GuardOp.inplace (fun l => 1 :: l)]).updated = false ∧
    ((GuardSync.init ([] : List Nat) []).run [GuardOp.sync, GuardOp.inplace (fun l => 1 :: l)]).writes_since_clear = 1 := by
  decide

/-- Claim C8 (amended): in every reachable guard state, the dirty flag is true
iff an append (a collection addX call) happened since the last consumer clear
or the guard has never been cleared (the flag starts `true` so the first sync
uploads the initial payload); the in-place entity mutations write the payload
without setting the flag; and the consumer clears a flag only in the critical
section in which it copies that payload to the device (updateScene leaves
every flag false and, whenever a flag was set, the new device copy equals the
payload). -/
theorem claim_C8_dirty_flag_protocol {α : Type} (d0 g0 : α) (ops : List (GuardOp α))
    (s : Scene) (g : GpuScene) :
    (((GuardSync.init d0 g0).run ops).updated = true ↔
      (0 < ((GuardSync.init d0 g0).run ops).appends_since_clear ∨
        ((GuardSync.init d0 g0).run ops).ever_cleared = false)) ∧
    ((RayTracer.updateScene s g).1.vertices.updated = false ∧
     (RayTracer.updateScene s g).1.transforms.updated = false ∧
     (RayTracer.updateScene s g).1.materials.updated = false ∧
     (RayTracer.updateScene s g).1.primitives.updated = false) ∧
    (s.vertices.updated = true →
      (RayTracer.updateScene s g).2.1.vertices = s.vertices.data.data) ∧
    (s.primitives.updated = true →
      (RayTracer.updateScene s g).2.1.primitives = s.primitives.data.data) ∧
    (s.vertices.updated = false →
      (RayTracer.updateScene s g).2.1.vertices = g.vertices) := by
  refine ⟨?_, ?_, ?_, ?_, ?_⟩
  · have key : ∀ (t : GuardSync α),
        (t.updated = true ↔ (0 < t.appends_since_clear ∨ t.ever_cleared = false)) →
        ∀ (l : List (GuardOp α)),
        ((t.run l).updated = true ↔
          (0 < (t.run l).appends_since_clear ∨ (t.run l).ever_cleared = false)) := by
      intro t ht l
      induction l generalizing t with
      | nil => exact ht
      | cons op rest ih =>
        apply ih
        cases op with
        | append f => simp [GuardSync.step]
        | inplace f => simpa [GuardSync.step] using ht
        | sync =>
          by_cases hu : t.updated = true
          · simp [GuardSync.step, hu]
          · simp only [GuardSync.step, Bool.not_eq_true] at hu ⊢
            rw [hu]
            simpa [hu] using ht
    exact key _ (by simp [GuardSync.init]) ops
  · refine ⟨?_, ?_, ?_, ?_⟩ <;>
      simp only [RayTracer.updateScene, syncGuard] <;> split <;> simp_all
  · intro h
    simp [RayTracer.updateScene, syncGuard, h]
  · intro h
    simp [RayTracer.updateScene, syncGuard, h]
  · intro h
    simp [RayTracer.updateScene, syncGuard, h]

/-- Witness for the amended claim C8: concrete evaluation on a short history
and on the single-primitive scene with all flags set. -/
theorem claim_C8_witness :
    ((GuardSync.init ([] : List Nat) []).run [GuardOp.append (fun l => 2 :: l)]).updated = true ∧
    (RayTracer.updateScene pairScene1 ⟨[], [], [], []⟩).1.primitives.updated = false ∧
    (RayTracer.updateScene pairScene1 ⟨[], [], [], []⟩).2.1.primitives =
      pairScene1.primitives.data.data := by
  have h := claim_C8_dirty_flag_protocol ([] : List Nat) []
    [GuardOp.append (fun l => 2 :: l)] pairScene1 ⟨[], [], [], []⟩
  refine ⟨?_, h.2.1.2.2.2, h.2.2.2.1 (by decide)⟩
  exact h.1.mpr (Or.inl (by decide))

/-- Claim C9: newEntity is not atomic across the transform and entity
collections: in a scene whose transform collection is below its limit while
the entity collection sits at capacity, newEntity appends the transform,
fails to append the entity, returns failure, and the orphaned transform stays
in the transform collection (no rollback). -/
theorem claim_C9_newEntity_orphan (s : Scene) (material_idx : Nat)
    (ht : s.transforms.data.size ≠ EnvLimits.limit_entities)
    (he : s.entities.data.size = EnvLimits.limit_entities) :
    (Env.newEntity s material_idx).2 = none ∧
    (Env.newEntity s material_idx).1.transforms.data.size = s.transforms.data.size + 1 ∧
    (Env.newEntity s material_idx).1.entities = s.entities := by
  obtain ⟨-, hsz, hent, a, hsome⟩ := Env.addTransform_below_limit s default ht
  rcases hAT : Env.addTransform s default with ⟨s1, r⟩
  rw [hAT] at hsome hsz hent
  simp only at hsome hsz hent
  subst hsome
  have hlim : s1.entities.data.size = EnvLimits.limit_entities := by rw [hent, he]
  have hE := Env.addEntity_at_limit s1 ⟨s.transforms.data.size, material_idx, []⟩ hlim
  simp [Env.newEntity, hAT, hE, hsz, hent]

/-- Witness for claim C9: ten entities added directly to the fresh scene fill
the entity collection while the transform collection stays empty; newEntity
then fails and leaves the orphaned transform behind. -/
theorem claim_C9_witness :
    (Env.newEntity (addEntityN 10) 0).2 = none ∧
    (Env.newEntity (addEntityN 10) 0).1.transforms.data.size =
      (addEntityN 10).transforms.data.size + 1 ∧
    (Env.newEntity (addEntityN 10) 0).1.entities = (addEntityN 10).entities :=
  claim_C9_newEntity_orphan (addEntityN 10) 0 (by decide) (by decide)

/-- rng.hpp `RNGesus`: the member distribution is constructed as a
uniform_real_distribution over (-1.0f, 1.0f); per the C++ standard such a
distribution produces values in the half-open interval from the first to the
second argument.  This is the set of values `gen` can return (floats as
rationals).  The interface comment of `gen` instead announces values between
0 and 1. -/
def RNGesus.genRange : Set ℚ := Set.Ico (-1) 1

/-- render.cpp `Render::randomInCircle`: a do-while loop drawing
`core_nucleus.gen()` until the dot product of the draw with itself (its
square) drops below one, returning that draw.  The draws are made explicit
as a stream consumed from position `k`, and the loop carries fuel; `none`
means the fuel ran out with every draw failing the check. -/
def randomInCircle (stream : Nat → ℚ) : Nat → Nat → Option ℚ
  | 0, _ => none
  | fuel + 1, k =>
    if stream k * stream k ≥ 1 then randomInCircle stream fuel (k + 1)
    else some (stream k)

/-- Claim C10: every value gen returns lies in the half-open interval from -1
to 1 (the distribution is uniform over that interval, not over 0..1 as the
interface comment of gen states), and consequently randomInCircle only
returns values r from that interval with r * r < 1, and it can return a
negative value. -/
theorem claim_C10_rng_range (stream : Nat → ℚ) (fuel k : Nat) (r : ℚ)
    (hstream : ∀ n, stream n ∈ RNGesus.genRange)
    (hret : randomInCircle stream fuel k = some r) :
    (∀ x ∈ RNGesus.genRange, -1 ≤ x ∧ x < 1) ∧
    (-1 ≤ r ∧ r < 1) ∧ r * r < 1 ∧
    (∃ s2 : Nat → ℚ, (∀ n, s2 n ∈ RNGesus.genRange) ∧
      ∃ r2, randomInCircle s2 1 0 = some r2 ∧ r2 < 0) := by
  refine ⟨fun x hx => ⟨hx.1, hx.2⟩, ?_, ?_, ?_⟩
  · induction fuel generalizing k with
    | zero => exact absurd hret (by simp [randomInCircle])
    | succ n ih =>
      rw [randomInCircle] at hret
      split at hret
      · exact ih _ hret
      · injection hret with hret
        subst hret
        exact ⟨(hstream k).1, (hstream k).2⟩
  · induction fuel generalizing k with
    | zero => exact absurd hret (by simp [randomInCircle])
    | succ n ih =>
      rw [randomInCircle] at hret
      split at hret
      case isTrue => exact ih _ hret
      case isFalse h =>
        injection hret with hret
        subst hret
        exact lt_of_not_ge h
  · refine ⟨fun _ => -1/2, fun n => ⟨by norm_num, by norm_num⟩, -1/2, ?_, by norm_num⟩
    rw [randomInCircle]
    rw [if_neg (by norm_num)]

/-- Witness for claim C10: the constant stream one half makes randomInCircle
return one half at once. -/
theorem claim_C10_witness :
    (-1 ≤ (1 : ℚ)/2 ∧ (1 : ℚ)/2 < 1) ∧ (1 : ℚ)/2 * (1/2) < 1 := by
  have h := claim_C10_rng_range (fun _ => 1/2) 1 0 (1/2)
    (fun n => ⟨by norm_num, by norm_num⟩)
    (by rw [randomInCircle]; rw [if_neg (by norm_num)])
  exact ⟨h.2.1, h.2.2.1⟩

/-- The per-frame pipeline stages the render records and submits.  The
post-process stage stands for the tone-map record together with the
transition of the image to a presentable state, and the pre-process stage
for the transition to the writable (general) layout, following the stage
vocabulary of the specification. -/
inductive Stage where
  | deltaSync | preProcess | rayGen | intersect | shadeScatter | postProcess
deriving DecidableEq

/-- render.cpp `Render::renderImage`: computes n_samples from the
anti-aliasing setting (incremented once when zero), records one ray
generation dispatch, then for each sample index three intersect-pipeline
records (the routines standing in for the colour and scatter stages also
record the intersect pipeline), then one post-process record, all into one
command buffer. -/
def renderImageStages (anti_aliasing : Nat) : List Stage :=
  let n_samples := if anti_aliasing = 0 then anti_aliasing + 1 else anti_aliasing
  [Stage.rayGen] ++
    (List.replicate n_samples [Stage.intersect, Stage.intersect, Stage.intersect]).flatten ++
    [Stage.postProcess]

/-- render.cpp `Render::renderFrame` stage sequence of one frame: the
environment update jobs (the delta-sync stage), the image transition to the
writable layout (pre-process), then the renderImage records.  The configured
bounce depth (display_settings.ray_depth) is kept as an argument to express
that it does not influence the recorded sequence: it is only passed to
updateRayLauncher during delta-sync. -/
def renderFrameStages (anti_aliasing ray_depth : Nat) : List Stage :=
  [Stage.deltaSync, Stage.preProcess] ++ renderImageStages anti_aliasing

/-- The stage sequence claim C1 asserts, built from the words of the
specification: delta-sync, pre-process, one ray generation, bounce_depth
repetitions of an intersect stage followed by a shade-scatter stage, then
one post-process. -/
def specStageSequence (bounce_depth : Nat) : List Stage :=
  [Stage.deltaSync, Stage.preProcess, Stage.rayGen] ++
    (List.replicate bounce_depth [Stage.intersect, Stage.shadeScatter]).flatten ++
    [Stage.postProcess]

theorem shadeScatter_not_in_replicate (n : Nat) :
    Stage.shadeScatter ∉
      (List.replicate n [Stage.intersect, Stage.intersect, Stage.intersect]).flatten := by
  induction n with
  | zero => simp
  | succ m ih => simp [List.replicate_succ, ih]

/-- Counterexample to claim C1: at sample count 1 and the configured default
bounce depth 12, the recorded sequence is not the claimed one (nor is it at
bounce depth 2). -/
theorem claim_C1_counterexample :
    renderFrameStages 1 12 ≠ specStageSequence 12 ∧
    renderFrameStages 1 2 ≠ specStageSequence 2 := by
  decide

/-- Claim C1 (amended): for sample count 1 the recorded per-frame sequence is
delta-sync, pre-process, ray-gen, three intersect records, post-process, for
every configured bounce depth; the sequence never depends on the bounce
depth, and no shade-scatter stage is ever recorded (the scatter and colour
recording routines bind the intersect pipeline). -/
theorem claim_C1_stage_sequence (aa k k2 : Nat) :
    renderFrameStages 1 k =
      [Stage.deltaSync, Stage.preProcess, Stage.rayGen,
       Stage.intersect, Stage.intersect, Stage.intersect, Stage.postProcess] ∧
    renderFrameStages aa k = renderFrameStages aa k2 ∧
    Stage.shadeScatter ∉ renderFrameStages aa k := by
  refine ⟨rfl, rfl, ?_⟩
  intro h
  simp [renderFrameStages, renderImageStages, List.mem_append] at h
  obtain ⟨l, ⟨-, rfl⟩, hmem⟩ := h
  simp at hmem

/-- Witness for the amended claim C1: the sequence at sample count 1 and the
default bounce depth, and the absence of a shade-scatter stage among its
records. -/
theorem claim_C1_witness :
    renderFrameStages 1 12 =
      [Stage.deltaSync, Stage.preProcess, Stage.rayGen,
       Stage.intersect, Stage.intersect, Stage.intersect, Stage.postProcess] ∧
    Stage.shadeScatter ∉ renderFrameStages 1 12 := by
  have h := claim_C1_stage_sequence 1 12 0
  exact ⟨h.1, h.2.2⟩

/-- External inputs of one iteration of the Nucleus run loop: whether the
window reports close, whether Render::dispatchFrame succeeds, and whether
the bounded wait on the main fence succeeds.  dispatchFrame and the timed
waitForMainFence are called by nucleus.cpp but their bodies are not in the
sources; only their boolean outcomes feed the loop, so they enter the model
as oracle inputs. -/
structure FrameInput where
  close : Bool
  dispatch_ok : Bool
  fence_ok : Bool

/-- Result of nucleus.cpp `Nucleus::renderFrame` run to completion on a pool
thread: the new frame counter and whether the body threw.  A failed dispatch
only clears the rendering flag and the code proceeds to the fence wait; a
failed fence wait clears the flag, forces the counter to the limit and
throws (the exception is stored in the packaged-task future); on success the
flag is cleared and frameCounterIncrement bumps the counter - only when the
limit is nonzero, as in the source. -/
structure FrameOutcome where
  counter : Nat
  threw : Bool

/-- nucleus.cpp `Nucleus::renderFrame` state effect. -/
def Nucleus.renderFrameStep (limit counter : Nat) (inp : FrameInput) : FrameOutcome :=
  if inp.fence_ok then
    { counter := if limit ≠ 0 then counter + 1 else counter, threw := false }
  else
    { counter := limit, threw := true }

/-- Outcome of the run loop: stopped by the close signal, stopped by
frameCounterCheck, or still running when the fuel ran out.  `errors` counts
exceptions thrown inside frame tasks; they stay stored in the task futures
(run only ever calls wait, never get), so run surfaces none of them. -/
inductive RunResult where
  | closed (counter errors : Nat)
  | limitReached (counter errors : Nat)
  | running (counter errors : Nat)
deriving DecidableEq

/-- nucleus.cpp `Nucleus::run` main loop, serialized so that each effective
iteration polls the close flag, dispatches one frame to completion, and then
performs frameCounterCheck (break only when the limit is nonzero and the
counter reached it). -/
def Nucleus.runLoop (inputs : Nat → FrameInput) (limit : Nat) :
    Nat → Nat → Nat → Nat → RunResult
  | 0, _, counter, errors => RunResult.running counter errors
  | fuel + 1, tick, counter, errors =>
    if (inputs tick).close then RunResult.closed counter errors
    else
      let out := Nucleus.renderFrameStep limit counter (inputs tick)
      let errors2 := errors + (if out.threw then 1 else 0)
      if limit ≠ 0 ∧ limit ≤ out.counter then RunResult.limitReached out.counter errors2
      else Nucleus.runLoop inputs limit fuel (tick + 1) out.counter errors2

/-- nucleus.cpp `Nucleus::run`: the loop started with counter zero after
frameCounterReset. -/
def Nucleus.run (inputs : Nat → FrameInput) (limit fuel : Nat) : RunResult :=
  Nucleus.runLoop inputs limit fuel 0 0 0

theorem runLoop_reaches_limit (inputs : Nat → FrameInput) (limit : Nat)
    (hcl : ∀ t, (inputs t).close = false) (h0 : 0 < limit) :
    ∀ f tick c e, c < limit → limit ≤ c + f →
      ∃ c2 e2, Nucleus.runLoop inputs limit f tick c e = RunResult.limitReached c2 e2 ∧
        limit ≤ c2 := by
  intro f
  induction f with
  | zero => intro tick c e h1 h2; omega
  | succ n ih =>
    intro tick c e h1 h2
    rw [Nucleus.runLoop]
    rw [hcl tick]
    simp only [Bool.false_eq_true, if_false]
    have hl : limit ≠ 0 := Nat.pos_iff_ne_zero.mp h0
    by_cases hf : (inputs tick).fence_ok
    · have hout : Nucleus.renderFrameStep limit c (inputs tick) = ⟨c + 1, false⟩ := by
        simp [Nucleus.renderFrameStep, hf, hl]
      simp only [hout, Bool.false_eq_true, if_false]
      by_cases hc : limit ≤ c + 1
      · rw [if_pos ⟨hl, hc⟩]
        exact ⟨c + 1, e + 0, rfl, hc⟩
      · rw [if_neg (by intro hx; exact hc hx.2)]
        exact ih (tick + 1) (c + 1) (e + 0) (by omega) (by omega)
    · have hout : Nucleus.renderFrameStep limit c (inputs tick) = ⟨limit, true⟩ := by
        simp [Nucleus.renderFrameStep, hf]
      simp only [hout, if_true]
      rw [if_pos ⟨hl, Nat.le_refl limit⟩]
      exact ⟨limit, e + 1, rfl, Nat.le_refl limit⟩

theorem runLoop_zero_no_limit (inputs : Nat → FrameInput) :
    ∀ f tick c e c2 e2,
      Nucleus.runLoop inputs 0 f tick c e ≠ RunResult.limitReached c2 e2 := by
  intro f
  induction f with
  | zero => intro tick c e c2 e2 h; exact absurd h (by simp [Nucleus.runLoop])
  | succ n ih =>
    intro tick c e c2 e2 h
    rw [Nucleus.runLoop] at h
    by_cases hc : (inputs tick).close
    · rw [if_pos hc] at h
      exact RunResult.noConfusion h
    · rw [if_neg hc] at h
      rw [if_neg (by intro hx; exact hx.1 rfl)] at h
      exact ih _ _ _ _ _ h

/-- Counterexample to claim C7: under run(0) (unlimited) with the fence
timing out on every frame, the loop does not stop at the first timeout -
after one loop iteration it is still running (having stored one exception in
the abandoned task future), and given more fuel it keeps dispatching frame
after frame (five iterations, five stored exceptions), surfacing no error. -/
theorem claim_C7_counterexample :
    Nucleus.run (fun _ => ⟨false, true, false⟩) 0 1 = RunResult.running 0 1 ∧
    Nucleus.run (fun _ => ⟨false, true, false⟩) 0 5 = RunResult.running 0 5 := by
  decide

/-- Claim C7 (amended): with no close signal, run(N) for N > 0 stops via the
frame-counter check with counter at least N (given at least N loop
iterations); run(0) never stops via the counter check, whatever happens - in
particular a fence timeout under run(0) leaves the loop running; and a fence
timeout under a nonzero limit stops the loop on that very frame, because
renderFrame forces the counter to the limit before throwing - the stored
exception itself is never rethrown by run. -/
theorem claim_C7_run_loop (inputs : Nat → FrameInput) (limit fuel : Nat)
    (hcl : ∀ t, (inputs t).close = false) (h0 : 0 < limit) (hfuel : limit ≤ fuel) :
    (∃ c e, Nucleus.run inputs limit fuel = RunResult.limitReached c e ∧ limit ≤ c) ∧
    (∀ f tick c e c2 e2,
      Nucleus.runLoop inputs 0 f tick c e ≠ RunResult.limitReached c2 e2) ∧
    (∀ f tick c e, (inputs tick).fence_ok = false →
      Nucleus.runLoop inputs limit (f + 1) tick c e =
        RunResult.limitReached limit (e + 1)) := by
  refine ⟨?_, runLoop_zero_no_limit inputs, ?_⟩
  · exact runLoop_reaches_limit inputs limit hcl h0 fuel 0 0 0 h0 (by omega)
  · intro f tick c e hf
    rw [Nucleus.runLoop, hcl tick]
    simp only [Bool.false_eq_true, if_false]
    have hout : Nucleus.renderFrameStep limit c (inputs tick) = ⟨limit, true⟩ := by
      simp [Nucleus.renderFrameStep, hf]
    simp only [hout, if_true]
    rw [if_pos ⟨Nat.pos_iff_ne_zero.mp h0, Nat.le_refl limit⟩]

/-- Witness for the amended claim C7: a run with limit 3, enough fuel, no
close signal and every fence wait succeeding stops via the counter check at
counter 3; and a timeout on the first frame of a limit-3 run stops it at
once with the counter forced to 3. -/
theorem claim_C7_witness :
    (∃ c e, Nucleus.run (fun _ => ⟨false, true, true⟩) 3 10 =
      RunResult.limitReached c e ∧ 3 ≤ c) ∧
    Nucleus.runLoop (fun _ => ⟨false, true, false⟩) 3 1 0 0 0 =
      RunResult.limitReached 3 1 := by
  constructor
  · exact (claim_C7_run_loop (fun _ => ⟨false, true, true⟩) 3 10
      (fun t => rfl) (by decide) (by decide)).1
  · exact (claim_C7_run_loop (fun _ => ⟨false, true, false⟩) 3 10
      (fun t => rfl) (by decide) (by decide)).2.2 0 0 0 0 rfl

/-- thread_pool.hpp `ThreadPool` state: the FIFO task queue (task
identifiers), the tasks already executed in execution order (the queue mutex
serializes pops, so execution start order is a sequence), the stop flag, the
number of worker threads still inside their cycle, and the ghost list of all
tasks ever enqueued, in submission order. -/
structure PoolState where
  queue : List Nat
  executed : List Nat
  stopping : Bool
  workers : Nat
  enqueued : List Nat
deriving DecidableEq

/-- Pool as constructed with n worker threads: empty queue, nothing executed,
not stopping. -/
def PoolState.init (n : Nat) : PoolState := ⟨[], [], false, n, []⟩

/-- Atomic steps of the pool, each corresponding to one critical section of
thread_pool.hpp: `enq` is ThreadPool::enqueue (the caller contract forbids
submission after shutdown began, hence the stopping hypothesis); `popExec`
is one worker cycle iteration popping the queue front and running the task
(run to completion by the time the worker re-enters the lock); `shutdown` is
the destructor setting the stop flag; `workerExit` is a worker observing
stopping with an empty queue and leaving its cycle (being joined). -/
inductive PoolStep : PoolState → PoolState → Prop where
  | enq (s : PoolState) (t : Nat) (h : s.stopping = false) :
      PoolStep s { s with queue := s.queue ++ [t], enqueued := s.enqueued ++ [t] }
  | popExec (s : PoolState) (t : Nat) (rest : List Nat)
      (hw : 0 < s.workers) (hq : s.queue = t :: rest) :
      PoolStep s { s with queue := rest, executed := s.executed ++ [t] }
  | shutdown (s : PoolState) :
      PoolStep s { s with stopping := true }
  | workerExit (s : PoolState) (hw : 0 < s.workers)
      (hs : s.stopping = true) (hq : s.queue = []) :
      PoolStep s { s with workers := s.workers - 1 }

/-- Pool states reachable from a pool of n workers. -/
inductive PoolReachable (n : Nat) : PoolState → Prop where
  | init : PoolReachable n (PoolState.init n)
  | step {a b : PoolState} : PoolReachable n a → PoolStep a b → PoolReachable n b

theorem poolInvariant (n : Nat) (hn : 0 < n) (s : PoolState)
    (hr : PoolReachable n s) :
    s.executed ++ s.queue = s.enqueued ∧
    (s.workers = 0 → s.stopping = true) ∧
    (s.workers = 0 → s.queue = []) ∧
    (s.workers < n → s.stopping = true) := by
  induction hr with
  | init =>
    exact ⟨rfl, fun h => absurd hn (Nat.not_lt.mpr (Nat.le_of_eq h)),
      fun _ => rfl, fun h => absurd h (Nat.lt_irrefl n)⟩
  | step hr hs ih =>
    obtain ⟨i1, i2, i3, i4⟩ := ih
    cases hs with
    | enq t h =>
      exact ⟨by simp [← i1], fun h0 => absurd (i2 h0) (by simp [h]),
        fun h0 => absurd (i2 h0) (by simp [h]),
        fun h0 => absurd (i4 h0) (by simp [h])⟩
    | popExec t rest hw hq =>
      exact ⟨by simp [← i1, hq], fun h0 => i2 h0,
        fun h0 => absurd hw (Nat.not_lt.mpr (Nat.le_of_eq h0)),
        fun h0 => i4 h0⟩
    | shutdown =>
      exact ⟨i1, fun _ => rfl, fun h0 => i3 h0, fun _ => rfl⟩
    | workerExit hw hst hq =>
      exact ⟨i1, fun _ => hst, fun _ => hq, fun _ => hst⟩

/-- Claim C5: every task enqueued before shutdown is executed exactly once
and in FIFO order.  In every reachable pool state the executed sequence
followed by the pending queue is exactly the submission sequence; once every
worker has exited (threads joined), the executed sequence equals the
submission sequence - so K enqueued increment tasks yield counter exactly K,
each task ran exactly once, the queue drained in FIFO order, and no task was
dropped. -/
theorem claim_C5_pool_drains (n : Nat) (s : PoolState) (hn : 0 < n)
    (hr : PoolReachable n s) :
    s.executed ++ s.queue = s.enqueued ∧
    (s.workers = 0 → s.executed = s.enqueued) ∧
    (∀ t, s.workers = 0 → s.executed.count t = s.enqueued.count t) ∧
    (s.workers = 0 → s.executed.length = s.enqueued.length) := by
  obtain ⟨i1, -, i3, -⟩ := poolInvariant n hn s hr
  have key : s.workers = 0 → s.executed = s.enqueued := by
    intro h0
    have := i3 h0
    rw [← i1, this]
    simp
  exact ⟨i1, key, fun t h0 => by rw [key h0], fun h0 => by rw [key h0]⟩

/-- The joined state of a one-worker pool that received one task (id 42),
ran it, was shut down and had its worker exit. -/
def poolFinal : PoolState := ⟨[], [42], true, 0, [42]⟩

theorem poolFinal_reachable : PoolReachable 1 poolFinal := by
  have h0 : PoolReachable 1 (PoolState.init 1) := PoolReachable.init
  have h1 : PoolReachable 1 ⟨[42], [], false, 1, [42]⟩ :=
    PoolReachable.step h0 (PoolStep.enq (PoolState.init 1) 42 rfl)
  have h2 : PoolReachable 1 ⟨[], [42], false, 1, [42]⟩ :=
    PoolReachable.step h1 (PoolStep.popExec ⟨[42], [], false, 1, [42]⟩ 42 [] (by decide) rfl)
  have h3 : PoolReachable 1 ⟨[], [42], true, 1, [42]⟩ :=
    PoolReachable.step h2 (PoolStep.shutdown ⟨[], [42], false, 1, [42]⟩)
  exact PoolReachable.step h3 (PoolStep.workerExit ⟨[], [42], true, 1, [42]⟩ (by decide) rfl rfl)

/-- Witness for claim C5: the joined one-worker pool with one submitted task
has executed exactly its submission sequence. -/
theorem claim_C5_witness :
    poolFinal.executed ++ poolFinal.queue = poolFinal.enqueued ∧
    poolFinal.executed = poolFinal.enqueued ∧
    poolFinal.executed.length = poolFinal.enqueued.length := by
  have h := claim_C5_pool_drains 1 poolFinal (by decide) poolFinal_reachable
  exact ⟨h.1, h.2.1 rfl, h.2.2.2 rfl⟩

/-- Program counter of one environment.cpp `Environment::replaceScene` call:
the old pointer is saved before any lock is taken, the exclusive lock is
acquired, the pointer swapped, the lock released, and only then the old
scene deleted. -/
inductive WriterPC where
  | idle
  | readOld (old : Nat)
  | locked (old : Nat)
  | swapped (old : Nat)
  | released (old : Nat)
  | done
deriving DecidableEq

/-- Environment scene-guard state interleaving one replaceScene call with
readers of the shared/exclusive `guard`: the current scene pointer (scenes
identified by address), the scene pointer each current shared-lock holder
dereferences, whether the writer holds the lock exclusively, the scenes
already deleted, and the writer program counter. -/
structure EnvState where
  scene : Nat
  holding : List Nat
  writer : Bool
  destroyed : List Nat
  pc : WriterPC
deriving DecidableEq

/-- Guard state at Environment construction: scene s0 loaded, no lock
holder, nothing destroyed, replaceScene not yet called. -/
def EnvState.init (s0 : Nat) : EnvState := ⟨s0, [], false, [], WriterPC.idle⟩

/-- Interleaved atomic steps: readers acquire the guard in shared mode (only
when no writer holds it), read the scene pointer, and eventually release;
the writer follows the replaceScene line sequence, acquiring exclusively
only when no reader holds the guard. -/
inductive EnvStep (new : Nat) : EnvState → EnvState → Prop where
  | readerAcquire (s : EnvState) (h : s.writer = false) :
      EnvStep new s { s with holding := s.scene :: s.holding }
  | readerRelease (s : EnvState) (v : Nat) (h : v ∈ s.holding) :
      EnvStep new s { s with holding := s.holding.erase v }
  | readOld (s : EnvState) (h : s.pc = WriterPC.idle) :
      EnvStep new s { s with pc := WriterPC.readOld s.scene }
  | acquire (s : EnvState) (old : Nat) (h : s.pc = WriterPC.readOld old)
      (hw : s.writer = false) (hh : s.holding = []) :
      EnvStep new s { s with writer := true, pc := WriterPC.locked old }
  | swap (s : EnvState) (old : Nat) (h : s.pc = WriterPC.locked old) :
      EnvStep new s { s with scene := new, pc := WriterPC.swapped old }
  | release (s : EnvState) (old : Nat) (h : s.pc = WriterPC.swapped old) :
      EnvStep new s { s with writer := false, pc := WriterPC.released old }
  | destroy (s : EnvState) (old : Nat) (h : s.pc = WriterPC.released old) :
      EnvStep new s { s with destroyed := s.destroyed ++ [old], pc := WriterPC.done }

/-- States reachable from the freshly constructed guard around one
replaceScene(new) call. -/
inductive EnvReachable (s0 new : Nat) : EnvState → Prop where
  | init : EnvReachable s0 new (EnvState.init s0)
  | step {a b : EnvState} : EnvReachable s0 new a → EnvStep new a b → EnvReachable s0 new b

theorem envInvariant (s0 new : Nat) (hne : new ≠ s0) (s : EnvState)
    (hr : EnvReachable s0 new s) :
    (∀ v ∈ s.holding, v = s.scene) ∧
    s.scene ∉ s.destroyed ∧
    (s.pc ≠ WriterPC.done → s.destroyed = []) ∧
    (s.pc = WriterPC.idle → s.scene = s0) ∧
    (∀ old, s.pc = WriterPC.readOld old → old = s.scene ∧ s.scene = s0) ∧
    (∀ old, s.pc = WriterPC.locked old →
      old = s.scene ∧ s.scene = s0 ∧ s.writer = true ∧ s.holding = []) ∧
    (∀ old, s.pc = WriterPC.swapped old →
      s.scene = new ∧ old ≠ new ∧ s.writer = true ∧ s.holding = []) ∧
    (∀ old, s.pc = WriterPC.released old → s.scene = new ∧ old ≠ new) := by
  induction hr with
  | init =>
    refine ⟨fun v hv => absurd hv (List.not_mem_nil v), List.not_mem_nil s0,
      fun _ => rfl, fun _ => rfl, ?_, ?_, ?_, ?_⟩ <;>
      intro old h <;> exact absurd h (by simp [EnvState.init])
  | step hr hs ih =>
    obtain ⟨i1, i2, i3, i4, i5, i6, i7, i8⟩ := ih
    cases hs with
    | readerAcquire h =>
      refine ⟨?_, i2, i3, i4, i5, ?_, ?_, i8⟩
      · intro v hv
        rcases List.mem_cons.mp hv with rfl | hv2
        · rfl
        · exact i1 v hv2
      · intro old hpc
        exact absurd (i6 old hpc).2.2.1 (by simp [h])
      · intro old hpc
        exact absurd (i7 old hpc).2.2.1 (by simp [h])
    | readerRelease v h =>
      refine ⟨?_, i2, i3, i4, i5, ?_, ?_, i8⟩
      · intro w hw
        exact i1 w (List.mem_of_mem_erase hw)
      · intro old hpc
        obtain ⟨a1, a2, a3, a4⟩ := i6 old hpc
        exact ⟨a1, a2, a3, by rw [a4]; rfl⟩
      · intro old hpc
        obtain ⟨a1, a2, a3, a4⟩ := i7 old hpc
        exact ⟨a1, a2, a3, by rw [a4]; rfl⟩
    | readOld h =>
      refine ⟨i1, i2, fun _ => i3 (by rw [h]; simp), fun hpc => absurd hpc (by simp),
        ?_, ?_, ?_, ?_⟩
      · intro o hpc
        injection hpc with he
        cases he
        exact ⟨rfl, i4 h⟩
      · intro o hpc
        exact absurd hpc (by simp)
      · intro o hpc
        exact absurd hpc (by simp)
      · intro o hpc
        exact absurd hpc (by simp)
    | acquire old h hw hh =>
      refine ⟨?_, i2, fun _ => i3 (by rw [h]; simp), ?_, ?_, ?_, ?_, ?_⟩
      · intro v hv
        rw [hh] at hv
        exact absurd hv (List.not_mem_nil v)
      · intro hpc
        exact absurd hpc (by simp)
      · intro o hpc
        exact absurd hpc (by simp)
      · intro o hpc
        injection hpc with he
        cases he
        exact ⟨(i5 old h).1, (i5 old h).2, rfl, hh⟩
      · intro o hpc
        exact absurd hpc (by simp)
      · intro o hpc
        exact absurd hpc (by simp)
    | swap old h =>
      obtain ⟨a1, a2, a3, a4⟩ := i6 old h
      refine ⟨?_, ?_, fun _ => i3 (by rw [h]; simp), ?_, ?_, ?_, ?_, ?_⟩
      · intro v hv
        rw [a4] at hv
        exact absurd hv (List.not_mem_nil v)
      · rw [i3 (by rw [h]; simp)]
        exact List.not_mem_nil new
      · intro hpc
        exact absurd hpc (by simp)
      · intro o hpc
        exact absurd hpc (by simp)
      · intro o hpc
        exact absurd hpc (by simp)
      · intro o hpc
        injection hpc with he
        cases he
        refine ⟨rfl, ?_, a3, a4⟩
        rw [a1, a2]
        exact Ne.symm hne
      · intro o hpc
        exact absurd hpc (by simp)
    | release old h =>
      obtain ⟨a1, a2, -, a4⟩ := i7 old h
      refine ⟨?_, i2, fun _ => i3 (by rw [h]; simp), ?_, ?_, ?_, ?_, ?_⟩
      · intro v hv
        rw [a4] at hv
        exact absurd hv (List.not_mem_nil v)
      · intro hpc
        exact absurd hpc (by simp)
      · intro o hpc
        exact absurd hpc (by simp)
      · intro o hpc
        exact absurd hpc (by simp)
      · intro o hpc
        exact absurd hpc (by simp)
      · intro o hpc
        injection hpc with he
        cases he
        exact ⟨a1, a2⟩
    | destroy old h =>
      obtain ⟨a1, a2⟩ := i8 old h
      have hdest := i3 (by rw [h]; simp)
      refine ⟨i1, ?_, ?_, ?_, ?_, ?_, ?_, ?_⟩
      · show _ ∉ _ ++ [old]
        rw [hdest, a1]
        simp only [List.nil_append, List.mem_singleton]
        exact fun hc => a2 hc.symm
      · intro hpc
        exact absurd rfl hpc
      · intro hpc
        exact absurd hpc (by simp)
      · intro o hpc
        exact absurd hpc (by simp)
      · intro o hpc
        exact absurd hpc (by simp)
      · intro o hpc
        exact absurd hpc (by simp)
      · intro o hpc
        exact absurd hpc (by simp)

/-- Claim C6: replaceScene swaps the scene pointer only while holding the
guard exclusively and destroys the old scene only after the swap completed
and the lock was released; hence while the writer holds the lock no reader
holds the guard, nothing is destroyed before the writer reaches its final
step, every reader holding the shared lock dereferences exactly the current
(fully swapped) scene pointer, and that scene is never among the destroyed
ones - no reader is invalidated mid-read. -/
theorem claim_C6_replaceScene_safety (s0 new : Nat) (hne : new ≠ s0)
    (s : EnvState) (hr : EnvReachable s0 new s) :
    (∀ v ∈ s.holding, v = s.scene ∧ v ∉ s.destroyed) ∧
    (s.pc ≠ WriterPC.done → s.destroyed = []) ∧
    (∀ old, s.pc = WriterPC.locked old ∨ s.pc = WriterPC.swapped old →
      s.writer = true ∧ s.holding = []) := by
  obtain ⟨i1, i2, i3, -, -, i6, i7, -⟩ := envInvariant s0 new hne s hr
  refine ⟨?_, i3, ?_⟩
  · intro v hv
    rw [i1 v hv]
    exact ⟨rfl, i2⟩
  · intro old hpc
    rcases hpc with h | h
    · exact ⟨(i6 old h).2.2.1, (i6 old h).2.2.2⟩
    · exact ⟨(i7 old h).2.2.1, (i7 old h).2.2.2⟩

/-- The guard state after a full interleaving: a reader read scene 0 and
released, replaceScene(1) ran to completion, and a new reader now holds
the shared lock on scene 1. -/
def envFinal : EnvState := ⟨1, [1], false, [0], WriterPC.done⟩

theorem envFinal_reachable : EnvReachable 0 1 envFinal := by
  have h0 : EnvReachable 0 1 (EnvState.init 0) := EnvReachable.init
  have h1 : EnvReachable 0 1 ⟨0, [0], false, [], WriterPC.idle⟩ :=
    EnvReachable.step h0 (EnvStep.readerAcquire (EnvState.init 0) rfl)
  have h2 : EnvReachable 0 1 ⟨0, [0], false, [], WriterPC.readOld 0⟩ :=
    EnvReachable.step h1 (EnvStep.readOld ⟨0, [0], false, [], WriterPC.idle⟩ rfl)
  have h3 : EnvReachable 0 1 ⟨0, [], false, [], WriterPC.readOld 0⟩ :=
    EnvReachable.step h2
      (EnvStep.readerRelease ⟨0, [0], false, [], WriterPC.readOld 0⟩ 0 (by decide))
  have h4 : EnvReachable 0 1 ⟨0, [], true, [], WriterPC.locked 0⟩ :=
    EnvReachable.step h3
      (EnvStep.acquire ⟨0, [], false, [], WriterPC.readOld 0⟩ 0 rfl rfl rfl)
  have h5 : EnvReachable 0 1 ⟨1, [], true, [], WriterPC.swapped 0⟩ :=
    EnvReachable.step h4 (EnvStep.swap ⟨0, [], true, [], WriterPC.locked 0⟩ 0 rfl)
  have h6 : EnvReachable 0 1 ⟨1, [], false, [], WriterPC.released 0⟩ :=
    EnvReachable.step h5 (EnvStep.release ⟨1, [], true, [], WriterPC.swapped 0⟩ 0 rfl)
  have h7 : EnvReachable 0 1 ⟨1, [], false, [0], WriterPC.done⟩ :=
    EnvReachable.step h6 (EnvStep.destroy ⟨1, [], false, [], WriterPC.released 0⟩ 0 rfl)
  exact EnvReachable.step h7
    (EnvStep.readerAcquire ⟨1, [], false, [0], WriterPC.done⟩ rfl)

/-- Witness for claim C6: in the fully interleaved run the surviving reader
holds exactly the new scene and the new scene is not destroyed. -/
theorem claim_C6_witness :
    (1 : Nat) = envFinal.scene ∧ (1 : Nat) ∉ envFinal.destroyed := by
  have h := claim_C6_replaceScene_safety 0 1 (by decide) envFinal envFinal_reachable
  exact h.1 1 (by decide)

end Aura
